import Mathlib

/-!
Formalisation of the HTTP streaming readers in smart_open/http.py
(BufferedInputBase and SeekableBufferedInputBase) as a shallow embedding.

Modelling conventions:
- Byte strings are List UInt8.
- The transport (the requests library) is modelled by the Transport
  structure: for each starting byte offset it yields a success flag and a
  chunking of the body it would deliver (the chunk iterator produced by
  response.iter_content).  A Response is the pair of the success flag
  (response.ok) and the remaining undelivered chunks of its raw stream;
  response.raw.read() is the flattening of those chunks, and pulling a
  chunk from iter_content consumes it from the same stream.
- Reader models the Python instance state: response (None once the handle
  is discarded), the _read_iter materialisation flag together with the
  _read_buffer contents, _current_pos, content_length, _seekable, and a
  request counter (the request-count collaborator test double from the
  specification, incremented once per transport request).
- Exceptions are explicit values: seek returns an Except result paired
  with the post-call state; the error branches return the state unchanged,
  matching the Python code where the raise happens before any mutation.
-/

namespace SmartOpenHttp

/-- Python str.lower restricted to the header tokens used here
(http.py line 177 applies .lower() to the Accept-Ranges value). -/
def lower (s : String) : String := ⟨s.data.map Char.toLower⟩

/-- ASCII bytes of a string literal, for concrete test inputs. -/
def strBytes (s : String) : List UInt8 := s.data.map (fun c => UInt8.ofNat c.toNat)

/-- http.py line 11: START = 0. -/
def START : Int := 0

/-- http.py line 12: CURRENT = 1. -/
def CURRENT : Int := 1

/-- http.py line 13: END = 2. -/
def END : Int := 2

/-- http.py line 14: WHENCE_CHOICES = [START, CURRENT, END]. -/
def WHENCE_CHOICES : List Int := [START, CURRENT, END]

/-- http.py lines 24-25: def clamp of value into the interval. -/
def _clamp (value minval maxval : Int) : Int := max (min value maxval) minval

/-- A network response: response.ok plus the chunks its raw stream still
holds (the transport-determined chunking of the not-yet-delivered body). -/
structure Response where
  ok : Bool
  chunks : List (List UInt8)
deriving DecidableEq

/-- The response headers consumed by SeekableBufferedInputBase.__init__:
Content-Length parsed as an integer when present, and Accept-Ranges. -/
structure Headers where
  contentLength : Option Int
  acceptRanges : Option String
deriving DecidableEq

/-- The transport (requests.get with a range header): for a request whose
range starts at a given offset, whether the status is a success and which
chunking of the body the chunk iterator would deliver. -/
structure Transport where
  okAt : Nat → Bool
  chunksAt : Nat → List (List UInt8)

/-- http.py lines 237-246: _partial_request issues a GET whose range
starts at start_pos and returns the response unchecked. -/
def partial_request (t : Transport) (start_pos : Nat) : Response :=
  { ok := t.okAt start_pos, chunks := t.chunksAt start_pos }

/-- Instance state shared by BufferedInputBase and
SeekableBufferedInputBase.  read_iter is true once _read_iter is not None;
the iterator's remaining chunks then live in response.chunks, and
read_buffer is only meaningful while read_iter is true. -/
structure Reader where
  response : Option Response
  read_iter : Bool
  read_buffer : List UInt8
  current_pos : Nat
  content_length : Int
  seekable : Bool
  request_count : Nat
deriving DecidableEq

/-- The bytes still obtainable by bounded reads from the current state:
buffered bytes (when the iterator is materialised) followed by the
flattening of the chunks not yet pulled; empty once the handle is gone. -/
def Reader.remaining (r : Reader) : List UInt8 :=
  match r.response with
  | none => []
  | some resp => (if r.read_iter then r.read_buffer else []) ++ resp.chunks.flatten

/-- http.py lines 107-121: the while-loop of read.  Pulls chunks into the
buffer while it holds fewer than size bytes; on StopIteration returns the
whole buffer and clears it (lines 110-116); otherwise returns the first
size bytes and keeps the rest buffered (lines 120-121).  Result: the
returned bytes, the new buffer, the chunks left in the iterator. -/
def readChunks (size : Nat) : List UInt8 → List (List UInt8) → List UInt8 × List UInt8 × List (List UInt8)
  | buffer, [] =>
    if buffer.length < size then (buffer, [], [])
    else (buffer.take size, buffer.drop size, [])
  | buffer, c :: cs =>
    if buffer.length < size then readChunks size (buffer ++ c) cs
    else (buffer.take size, buffer.drop size, c :: cs)

/-- http.py lines 91-124: BufferedInputBase.read (inherited unchanged by
SeekableBufferedInputBase).  Returns the data and the updated state.
Line 95: a discarded handle yields the empty result.  Line 98: size 0
yields the empty result.  Lines 100-101: negative size drains
response.raw in one call, bypassing (and leaving in place) the read
buffer.  Lines 103-121: positive size materialises the chunk iterator on
first use and runs the buffering loop.  Line 123 advances _current_pos by
the length of the returned data. -/
def Reader.read (r : Reader) (size : Int) : List UInt8 × Reader :=
  match r.response with
  | none => ([], r)
  | some resp =>
    if size = 0 then ([], r)
    else if size < 0 then
      let retval := resp.chunks.flatten
      (retval,
        { r with response := some { resp with chunks := [] },
                 current_pos := r.current_pos + retval.length })
    else
      let buffer0 := if r.read_iter then r.read_buffer else []
      let out := readChunks size.toNat buffer0 resp.chunks
      (out.1,
        { r with response := some { resp with chunks := out.2.2 },
                 read_iter := true,
                 read_buffer := out.2.1,
                 current_pos := r.current_pos + out.1.length })

/-- http.py lines 72-75: close discards the response handle. -/
def Reader.close (r : Reader) : Reader := { r with response := none }

/-- http.py lines 227-228: tell returns _current_pos. -/
def Reader.tell (r : Reader) : Nat := r.current_pos

/-- The exceptions seek can raise: ValueError for an invalid whence
(http.py line 199) and OSError when the stream is not seekable
(http.py line 202). -/
inductive SeekErr where
  | valueError
  | osError
deriving DecidableEq

/-- http.py lines 204-211: the target position seek computes from offset
and whence, then clamped into the interval from 0 to content_length.
The final branch is the line 208 case whence == 2; seek only evaluates
this after checking whence is in WHENCE_CHOICES. -/
def seek_pos (r : Reader) (offset whence : Int) : Int :=
  let new_pos : Int :=
    if whence = START then offset
    else if whence = CURRENT then (r.current_pos : Int) + offset
    else r.content_length + offset
  _clamp new_pos 0 r.content_length

/-- http.py lines 190-225: SeekableBufferedInputBase.seek.  Validates
whence (line 198), then the seekable flag (line 201); computes and clamps
the target (lines 204-211); when the target differs from the current
position it sets the cursor, discards buffer and iterator, issues a new
ranged request and installs it as the handle when ok, else discards the
handle (lines 213-221); returns the clamped target (line 225). -/
def Reader.seek (r : Reader) (t : Transport) (offset : Int) (whence : Int) :
    Except SeekErr Nat × Reader :=
  if whence ∉ WHENCE_CHOICES then (.error .valueError, r)
  else if r.seekable = false then (.error .osError, r)
  else
    let new_pos := seek_pos r offset whence
    if (r.current_pos : Int) ≠ new_pos then
      let resp := partial_request t new_pos.toNat
      (.ok new_pos.toNat,
        { r with current_pos := new_pos.toNat,
                 read_buffer := [], read_iter := false,
                 response := if resp.ok then some resp else none,
                 request_count := r.request_count + 1 })
    else
      (.ok new_pos.toNat, r)

/-- http.py lines 34-67: BufferedInputBase.__init__ given the response the
transport returned for the plain GET.  raise_for_status on a non-success
status is modelled as none.  BufferedInputBase defines no content_length
and reports seekable() as False (lines 81-82), recorded here as the unused
value -1 and the flag false. -/
def openBuffered (resp : Response) : Option Reader :=
  if resp.ok then
    some { response := some resp, read_iter := false, read_buffer := [],
           current_pos := 0, content_length := -1, seekable := false,
           request_count := 1 }
  else none

/-- http.py lines 146-188: SeekableBufferedInputBase.__init__ given the
initial response and its headers.  Lines 171-178: _seekable starts true,
content_length is the Content-Length header parsed as an integer with
default -1; a negative value clears the flag, and so does an
Accept-Ranges value (default the string none) whose lowercasing is not
the string bytes. -/
def openSeekableReader (resp : Response) (h : Headers) : Option Reader :=
  if resp.ok then
    let content_length : Int := h.contentLength.getD (-1)
    let seekable0 := true
    let seekable1 := if content_length < 0 then false else seekable0
    let seekable2 :=
      if lower (h.acceptRanges.getD "none") ≠ "bytes" then false else seekable1
    some { response := some resp, read_iter := false, read_buffer := [],
           current_pos := 0, content_length := content_length,
           seekable := seekable2, request_count := 1 }
  else none

/-- The drain loop of the specification: call read with a fixed size until
it returns an empty result, concatenating the results.  Fuel bounds the
number of iterations; every theorem about it supplies enough fuel. -/
def drain_reads (n : Int) : Nat → Reader → List UInt8
  | 0, _ => []
  | fuel + 1, r =>
    let out := r.read n
    if out.1 = [] then [] else out.1 ++ drain_reads n fuel out.2

/-- Concrete 26-byte resource, delivered by the transport in 4-byte
chunks, from the scenario in the specification. -/
def alphabetChunks : List (List UInt8) :=
  [strBytes "abcd", strBytes "efgh", strBytes "ijkl", strBytes "mnop",
   strBytes "qrst", strBytes "uvwx", strBytes "yz"]

/-- The reader openBuffered yields on the alphabet resource. -/
def alphaReader : Reader :=
  { response := some { ok := true, chunks := alphabetChunks },
    read_iter := false, read_buffer := [], current_pos := 0,
    content_length := -1, seekable := false, request_count := 1 }

/-- Concrete 3-byte resource for seek witnesses. -/
def wContent : List UInt8 := strBytes "abc"

/-- A transport that always succeeds and serves the suffix of wContent
from the requested offset as a single chunk. -/
def wTransport : Transport :=
  { okAt := fun _ => true, chunksAt := fun pos => [wContent.drop pos] }

/-- A transport whose every ranged request has a non-success status. -/
def wFailTransport : Transport :=
  { okAt := fun _ => false, chunksAt := fun _ => [] }

/-- Headers advertising length 3 and byte ranges. -/
def wHeaders : Headers := { contentLength := some 3, acceptRanges := some "bytes" }

/-- The seekable reader openSeekableReader yields on wContent with
wHeaders. -/
def wReader : Reader :=
  { response := some { ok := true, chunks := [wContent] },
    read_iter := false, read_buffer := [], current_pos := 0,
    content_length := 3, seekable := true, request_count := 1 }

/-- A non-seekable reader over wContent. -/
def wPlainReader : Reader :=
  { response := some { ok := true, chunks := [wContent] },
    read_iter := false, read_buffer := [], current_pos := 0,
    content_length := -1, seekable := false, request_count := 1 }

/-- A reader whose handle has been discarded. -/
def wClosedReader : Reader :=
  { response := none, read_iter := true, read_buffer := [],
    current_pos := 3, content_length := 3, seekable := true,
    request_count := 1 }

theorem readChunks_flatten (size : Nat) (chunks : List (List UInt8)) :
    ∀ buffer : List UInt8,
      (readChunks size buffer chunks).1 ++ (readChunks size buffer chunks).2.1
        ++ (readChunks size buffer chunks).2.2.flatten = buffer ++ chunks.flatten := by
  induction chunks with
  | nil =>
    intro buffer
    simp only [readChunks]
    split
    · simp
    · simp [List.take_append_drop]
  | cons c cs ih =>
    intro buffer
    simp only [readChunks]
    split
    · rw [ih (buffer ++ c)]
      simp
    · simp [List.take_append_drop]

theorem readChunks_length (size : Nat) (chunks : List (List UInt8)) :
    ∀ buffer : List UInt8,
      (readChunks size buffer chunks).1.length = min size (buffer ++ chunks.flatten).length := by
  induction chunks with
  | nil =>
    intro buffer
    simp only [readChunks]
    split
    · next h => simp <;> omega
    · next h => simp <;> omega
  | cons c cs ih =>
    intro buffer
    simp only [readChunks]
    split
    · next h => rw [ih (buffer ++ c)]; simp
    · next h => simp <;> omega

theorem read_spec (r : Reader) (resp : Response) (n : Int)
    (hr : r.response = some resp) (hn : 0 < n) :
    ((r.read n).1).length = min n.toNat r.remaining.length ∧
    (r.read n).1 ++ ((r.read n).2).remaining = r.remaining ∧
    ((r.read n).2).current_pos = r.current_pos + (r.read n).1.length ∧
    ((r.read n).2).response =
      some { resp with
             chunks := (readChunks n.toNat (if r.read_iter then r.read_buffer else [])
                          resp.chunks).2.2 } := by
  have h0 : ¬ n = 0 := by omega
  have h1 : ¬ n < 0 := by omega
  simp only [Reader.read, Reader.remaining, hr, if_neg h0, if_neg h1]
  refine ⟨?_, ?_, by simp, by simp⟩
  · exact readChunks_length n.toNat resp.chunks _
  · rw [← List.append_assoc]
    exact readChunks_flatten n.toNat resp.chunks _

theorem read_empty_nil (r : Reader) (m : Int) (h : r.remaining = []) :
    (r.read m).1 = [] := by
  rcases hresp : r.response with _ | resp
  · simp [Reader.read, hresp]
  · have hrem := h
    simp only [Reader.remaining, hresp] at hrem
    have hflat : resp.chunks.flatten = [] := (List.append_eq_nil.mp hrem).2
    by_cases hm0 : m = 0
    · simp [Reader.read, hresp, hm0]
    by_cases hmneg : m < 0
    · simp [Reader.read, hresp, hm0, hmneg, hflat]
    · have hlen := (read_spec r resp m hresp (by omega)).1
      rw [h] at hlen
      simp at hlen
      exact hlen

theorem drain_reads_spec (n : Int) (hn : 0 < n) :
    ∀ (fuel : Nat) (r : Reader) (resp : Response), r.response = some resp →
      r.remaining.length ≤ fuel → drain_reads n fuel r = r.remaining := by
  intro fuel
  induction fuel with
  | zero =>
    intro r resp hr hlen
    have hnil : r.remaining = [] := List.length_eq_zero.mp (by omega)
    simp [drain_reads, hnil]
  | succ fuel ih =>
    intro r resp hr hlen
    have hspec := read_spec r resp n hr hn
    by_cases hout : (r.read n).1 = []
    · have hlen0 : (r.read n).1.length = 0 := by rw [hout]; rfl
      have hmin := hspec.1
      rw [hlen0] at hmin
      have hnn : 0 < n.toNat := by omega
      have hrem : r.remaining = [] := List.length_eq_zero.mp (by omega)
      simp [drain_reads, hout, hrem]
    · simp only [drain_reads, if_neg hout]
      have happ := hspec.2.1
      have hlen2 : ((r.read n).2).remaining.length ≤ fuel := by
        have hla := congrArg List.length happ
        simp only [List.length_append] at hla
        have hpos : 0 < (r.read n).1.length := by
          cases hc : (r.read n).1 with
          | nil => exact absurd hc hout
          | cons a ls => simp [hc]
        omega
      rw [ih ((r.read n).2) _ hspec.2.2.2 hlen2]
      exact happ

theorem seek_unfold (r : Reader) (t : Transport) (offset whence : Int)
    (hw : whence ∈ WHENCE_CHOICES) (hs : r.seekable = true) :
    r.seek t offset whence =
      (if (r.current_pos : Int) ≠ seek_pos r offset whence then
        (Except.ok (seek_pos r offset whence).toNat,
          { r with current_pos := (seek_pos r offset whence).toNat,
                   read_buffer := [], read_iter := false,
                   response :=
                     if (partial_request t (seek_pos r offset whence).toNat).ok then
                       some (partial_request t (seek_pos r offset whence).toNat)
                     else none,
                   request_count := r.request_count + 1 })
      else (Except.ok (seek_pos r offset whence).toNat, r)) := by
  simp only [Reader.seek]
  rw [if_neg (not_not_intro hw), if_neg (by simp [hs])]

theorem seek_pos_nonneg (r : Reader) (offset whence : Int) :
    0 ≤ seek_pos r offset whence := by
  simp only [seek_pos, _clamp]
  omega

theorem seek_pos_le (r : Reader) (offset whence : Int) (h : 0 ≤ r.content_length) :
    seek_pos r offset whence ≤ r.content_length := by
  simp only [seek_pos, _clamp]
  omega

/-- C1 fails on the code: read with a negative size drains response.raw
directly (http.py line 101) and skips the bytes already buffered from the
chunk iterator.  After a read of 10 on the alphabet resource the two
bytes kl are buffered; read(-1) returns the raw remainder starting at m,
not the remaining content from the cursor, and the cursor ends at 24
instead of 26 while kl stays buffered. -/
theorem read_unbounded_skips_buffer :
    ((openBuffered { ok := true, chunks := alphabetChunks }).map (fun r =>
      let o1 := r.read 10
      let o2 := o1.2.read (-1)
      (o1.1, o2.1, o2.2.current_pos, o2.2.read_buffer))) =
      some (strBytes "abcdefghij", strBytes "mnopqrstuvwxyz", 24, strBytes "kl") ∧
    strBytes "mnopqrstuvwxyz" ≠ strBytes "klmnopqrstuvwxyz" := by decide

/-- C2: for a seekable reader and a valid whence, seek computes the
target from offset and whence as the source does, clamps it into the
interval from 0 to content_length, sets the cursor to the clamped value
and returns it; a target beyond content_length clamps to exactly
content_length and every subsequent read returns the empty result.  The
hypotheses hend and htr are the reachable-state and transport facts this
rests on: a reader whose cursor is at end of resource has no bytes left
to deliver, and a ranged request starting at content_length has an empty
body. -/
theorem seek_clamps (r : Reader) (t : Transport) (offset whence : Int)
    (hw : whence ∈ WHENCE_CHOICES) (hs : r.seekable = true)
    (hcl : 0 ≤ r.content_length)
    (hend : r.current_pos = r.content_length.toNat → r.remaining = [])
    (htr : (t.chunksAt r.content_length.toNat).flatten = []) :
    seek_pos r offset whence =
      _clamp (if whence = START then offset
              else if whence = CURRENT then (r.current_pos : Int) + offset
              else r.content_length + offset) 0 r.content_length ∧
    (r.seek t offset whence).1 = Except.ok (seek_pos r offset whence).toNat ∧
    ((r.seek t offset whence).2).current_pos = (seek_pos r offset whence).toNat ∧
    0 ≤ seek_pos r offset whence ∧
    seek_pos r offset whence ≤ r.content_length ∧
    (r.content_length <
        (if whence = START then offset
         else if whence = CURRENT then (r.current_pos : Int) + offset
         else r.content_length + offset) →
      seek_pos r offset whence = r.content_length ∧
      ∀ m : Int, (((r.seek t offset whence).2).read m).1 = []) := by
  have hres : (r.seek t offset whence).1 = Except.ok (seek_pos r offset whence).toNat ∧
      ((r.seek t offset whence).2).current_pos = (seek_pos r offset whence).toNat := by
    rw [seek_unfold r t offset whence hw hs]
    by_cases hne : (r.current_pos : Int) ≠ seek_pos r offset whence
    · rw [if_pos hne]
      exact ⟨rfl, rfl⟩
    · rw [if_neg hne]
      push_neg at hne
      refine ⟨rfl, ?_⟩
      show r.current_pos = (seek_pos r offset whence).toNat
      omega
  refine ⟨rfl, hres.1, hres.2, seek_pos_nonneg r offset whence,
    seek_pos_le r offset whence hcl, ?_⟩
  intro hbig
  have hpos_eq : seek_pos r offset whence = r.content_length := by
    simp only [seek_pos, _clamp]
    omega
  refine ⟨hpos_eq, ?_⟩
  intro m
  apply read_empty_nil
  rw [seek_unfold r t offset whence hw hs]
  by_cases hne : (r.current_pos : Int) ≠ seek_pos r offset whence
  · rw [if_pos hne]
    simp only [Reader.remaining, partial_request, hpos_eq]
    by_cases hok : t.okAt r.content_length.toNat = true
    · simp [hok, htr]
    · simp [hok]
  · rw [if_neg hne]
    push_neg at hne
    apply hend
    omega

/-- C2 witness: seeking to offset 100 on the 3-byte resource clamps to 3
and a following read of one byte returns the empty result. -/
theorem seek_clamps_witness :
    wReader.seekable = true ∧ (0 : Int) ≤ wReader.content_length ∧
    (wReader.seek wTransport 100 0).1 = Except.ok 3 ∧
    (((wReader.seek wTransport 100 0).2).read 1).1 = [] := by
  have h := seek_clamps wReader wTransport 100 0 (by decide) (by decide) (by decide)
      (by decide) (by decide)
  have hv : (seek_pos wReader 100 0).toNat = 3 := by decide
  exact ⟨by decide, by decide, by rw [h.2.1, hv], (h.2.2.2.2.2 (by decide)).2 1⟩

/-- C3 fails on the code: the Accept-Ranges comparison lowercases the
header value first (http.py line 177), so the differently-cased token
Bytes also enables seeking, while the claim demands seekable false for
any value other than the exact token bytes. -/
theorem accept_ranges_case_counterexample :
    ((openSeekableReader { ok := true, chunks := [] }
        { contentLength := some 26, acceptRanges := some "Bytes" }).map Reader.seekable)
      = some true ∧
    (some "Bytes" : Option String) ≠ some "bytes" := by decide

/-- C3 (amended): the flag is true iff the Content-Length header parses
to a non-negative integer (default -1 when absent) and the lowercased
Accept-Ranges value (default the string none when absent) equals bytes;
content_length is the parsed header value. -/
theorem seekable_iff (resp : Response) (h : Headers) (r : Reader)
    (hr : openSeekableReader resp h = some r) :
    (r.seekable = true ↔
      0 ≤ h.contentLength.getD (-1) ∧ lower (h.acceptRanges.getD "none") = "bytes") ∧
    r.content_length = h.contentLength.getD (-1) := by
  have hok : resp.ok = true := by
    by_contra hok
    simp [openSeekableReader, hok] at hr
  simp only [openSeekableReader, if_pos hok, Option.some.injEq] at hr
  subst hr
  refine ⟨?_, rfl⟩
  by_cases h2 : lower (h.acceptRanges.getD "none") = "bytes"
  · by_cases h1 : h.contentLength.getD (-1) < 0
    · simp [h1, h2] <;> omega
    · simp [h1, h2] <;> omega
  · simp [h2]

/-- C3 witness: headers with length 3 and Accept-Ranges bytes give a
seekable reader. -/
theorem seekable_iff_witness :
    openSeekableReader { ok := true, chunks := [wContent] } wHeaders = some wReader ∧
    (wReader.seekable = true ↔
      0 ≤ wHeaders.contentLength.getD (-1) ∧
        lower (wHeaders.acceptRanges.getD "none") = "bytes") :=
  ⟨by decide,
    (seekable_iff { ok := true, chunks := [wContent] } wHeaders wReader (by decide)).1⟩

/-- C4 fails on the code: on a seekable reader over a 3-byte resource, a
seek whose re-request has a non-success status returns normally with the
clamped target instead of raising a transport error (http.py lines
218-221 absorb the failure); the handle is simply discarded. -/
theorem seek_failure_counterexample :
    (wReader.seek wFailTransport 2 0).1 = Except.ok 2 ∧
    ((wReader.seek wFailTransport 2 0).2).response = none := ⟨rfl, by decide⟩

/-- C4 (amended): when every re-request fails, seek raises nothing: it
returns the clamped target, and when the target differed from the cursor
the handle is discarded and all further reads return the empty result. -/
theorem seek_failure_no_error (r : Reader) (t : Transport) (offset whence : Int)
    (hw : whence ∈ WHENCE_CHOICES) (hs : r.seekable = true)
    (hfail : ∀ p : Nat, t.okAt p = false) :
    (∀ e : SeekErr, (r.seek t offset whence).1 ≠ Except.error e) ∧
    (r.seek t offset whence).1 = Except.ok (seek_pos r offset whence).toNat ∧
    ((r.current_pos : Int) ≠ seek_pos r offset whence →
      ((r.seek t offset whence).2).response = none ∧
      ∀ m : Int, (((r.seek t offset whence).2).read m).1 = []) := by
  rw [seek_unfold r t offset whence hw hs]
  by_cases hne : (r.current_pos : Int) ≠ seek_pos r offset whence
  · rw [if_pos hne]
    refine ⟨fun e h => by simp at h, rfl, fun _ => ⟨?_, ?_⟩⟩
    · simp [partial_request, hfail]
    · intro m
      apply read_empty_nil
      simp [Reader.remaining, partial_request, hfail]
  · rw [if_neg hne]
    push_neg at hne
    exact ⟨fun e h => by simp at h, rfl, fun hcon => absurd hne hcon⟩

/-- C4 witness (amended): with an always-failing transport, seek returns
the clamped target 2 without an error. -/
theorem seek_failure_no_error_witness :
    wReader.seekable = true ∧
    (wReader.seek wFailTransport 2 0).1 = Except.ok 2 := by
  have h := seek_failure_no_error wReader wFailTransport 2 0 (by decide) (by decide)
      (fun _ => rfl)
  have hv : (seek_pos wReader 2 0).toNat = 2 := by decide
  exact ⟨by decide, by rw [h.2.1, hv]⟩

/-- C5: a bounded read pulls chunks until the buffer holds the requested
count or the source is exhausted; it returns exactly the requested count,
advancing the cursor by it and keeping the remainder available, when
enough bytes remain, and otherwise returns all remaining bytes as a short
read; and the 26-byte alphabet delivered in 4-byte chunks yields the
scenario reads of 10, 10, 100 and 1 bytes. -/
theorem read_bounded_spec :
    (∀ (r : Reader) (resp : Response) (n : Int), r.response = some resp → 0 < n →
      ((r.read n).1.length = min n.toNat r.remaining.length ∧
       (r.read n).1 ++ ((r.read n).2).remaining = r.remaining ∧
       ((r.read n).2).current_pos = r.current_pos + (r.read n).1.length ∧
       (n.toNat ≤ r.remaining.length → (r.read n).1 = r.remaining.take n.toNat) ∧
       (r.remaining.length < n.toNat → (r.read n).1 = r.remaining))) ∧
    ((let o1 := alphaReader.read 10
      let o2 := o1.2.read 10
      let o3 := o2.2.read 100
      let o4 := o3.2.read 1
      (o1.1, o2.1, o3.1, o4.1)) =
      (strBytes "abcdefghij", strBytes "klmnopqrst", strBytes "uvwxyz", [])) := by
  constructor
  · intro r resp n hr hn
    have h := read_spec r resp n hr hn
    refine ⟨h.1, h.2.1, h.2.2.1, ?_, ?_⟩
    · intro hle
      have hlen : (r.read n).1.length = n.toNat := by rw [h.1]; omega
      have happ := h.2.1
      have htake : r.remaining.take n.toNat = (r.read n).1 := by
        rw [← happ, ← hlen, List.take_left]
      exact htake.symm
    · intro hlt
      have hlen : (r.read n).1.length = r.remaining.length := by rw [h.1]; omega
      have happ := h.2.1
      have hnil : ((r.read n).2).remaining = [] := by
        have hl := congrArg List.length happ
        simp only [List.length_append] at hl
        exact List.length_eq_zero.mp (by omega)
      rw [hnil, List.append_nil] at happ
      exact happ
  · decide

/-- C5 witness: the first bounded read of 10 bytes on the fresh alphabet
reader returns the first 10 bytes of the resource. -/
theorem read_bounded_spec_witness :
    alphaReader.response = some { ok := true, chunks := alphabetChunks } ∧
    (0 : Int) < 10 ∧
    (alphaReader.read 10).1 = alphaReader.remaining.take 10 :=
  ⟨rfl, by decide,
    (read_bounded_spec.1 alphaReader _ 10 rfl (by decide)).2.2.2.1 (by decide)⟩

/-- C6 fails on the code for size 0: read 0 returns the empty result at
once, so the drain loop stops immediately and does not reconstruct the
1-byte resource. -/
theorem drain_reads_zero_counterexample :
    (openBuffered { ok := true, chunks := [[97]] }).map (drain_reads 0 5) = some [] ∧
    ([] : List UInt8) ≠ [97] := by decide

/-- C6 (amended to sizes of at least 1): for every chunking and every
size of at least 1, repeatedly calling read with that size until it
returns the empty result reconstructs the full resource content byte for
byte. -/
theorem drain_reads_reconstructs (resp : Response) (r : Reader) (n : Int) (fuel : Nat)
    (hr : openBuffered resp = some r) (hn : 1 ≤ n)
    (hfuel : resp.chunks.flatten.length ≤ fuel) :
    drain_reads n fuel r = resp.chunks.flatten := by
  have hok : resp.ok = true := by
    by_contra hok
    simp [openBuffered, hok] at hr
  simp only [openBuffered, if_pos hok, Option.some.injEq] at hr
  subst hr
  have hs := drain_reads_spec n (by omega) fuel
      { response := some resp, read_iter := false, read_buffer := [],
        current_pos := 0, content_length := -1, seekable := false, request_count := 1 }
      resp rfl (by simpa [Reader.remaining] using hfuel)
  simpa [Reader.remaining] using hs

/-- C6 witness: draining the alphabet resource with reads of 3 bytes
reconstructs all 26 bytes. -/
theorem drain_reads_reconstructs_witness :
    openBuffered { ok := true, chunks := alphabetChunks } = some alphaReader ∧
    drain_reads 3 26 alphaReader = alphabetChunks.flatten :=
  ⟨by decide,
    drain_reads_reconstructs { ok := true, chunks := alphabetChunks } alphaReader 3 26
      (by decide) (by decide) (by decide)⟩

/-- C7: seek first validates whence against WHENCE_CHOICES and fails with
ValueError when it is invalid, regardless of the seekable flag; with a
valid whence and the flag false it fails with OSError, the generic
unsupported-operation error; in both cases the state is unchanged and
tell still returns the cursor as advanced only by reads. -/
theorem seek_validation (r : Reader) (t : Transport) (offset whence : Int) :
    (whence ∉ WHENCE_CHOICES →
      r.seek t offset whence = (Except.error SeekErr.valueError, r)) ∧
    (whence ∈ WHENCE_CHOICES → r.seekable = false →
      r.seek t offset whence = (Except.error SeekErr.osError, r) ∧
      ((r.seek t offset whence).2).tell = r.current_pos) := by
  constructor
  · intro hw
    simp only [Reader.seek, if_pos hw]
  · intro hw hs
    have heq : r.seek t offset whence = (Except.error SeekErr.osError, r) := by
      simp only [Reader.seek]
      rw [if_neg (not_not_intro hw), if_pos hs]
    exact ⟨heq, by rw [heq]; rfl⟩

/-- C7 witness: whence 5 fails with ValueError on a seekable reader, and
whence 0 fails with OSError on a non-seekable one, both leaving the state
unchanged. -/
theorem seek_validation_witness :
    ((5 : Int) ∉ WHENCE_CHOICES ∧
      wReader.seek wTransport 0 5 = (Except.error SeekErr.valueError, wReader)) ∧
    ((0 : Int) ∈ WHENCE_CHOICES ∧ wPlainReader.seekable = false ∧
      wPlainReader.seek wTransport 0 0 = (Except.error SeekErr.osError, wPlainReader)) :=
  ⟨⟨by decide, (seek_validation wReader wTransport 0 5).1 (by decide)⟩,
   ⟨by decide, by decide,
     ((seek_validation wPlainReader wTransport 0 0).2 (by decide) (by decide)).1⟩⟩

/-- C8: once the handle has been discarded (response none, as close
leaves it), read returns the empty result with the state unchanged for
every requested size, raising nothing. -/
theorem read_after_close (r : Reader) (size : Int) (h : r.response = none) :
    r.read size = ([], r) ∧ (Reader.close r).read size = ([], Reader.close r) := by
  constructor
  · simp [Reader.read, h]
  · simp [Reader.read, Reader.close]

/-- C8 witness: a closed reader returns the empty result for a read of 7
bytes. -/
theorem read_after_close_witness :
    wClosedReader.response = none ∧ wClosedReader.read 7 = ([], wClosedReader) :=
  ⟨rfl, (read_after_close wClosedReader 7 rfl).1⟩

/-- C9: a seek whose clamped target equals the current cursor issues no
new request and returns the cursor with the whole state unchanged,
request counter included; in particular seek 0 CURRENT is a no-op
whenever the cursor is within the resource. -/
theorem seek_noop (r : Reader) (t : Transport) (offset whence : Int)
    (hw : whence ∈ WHENCE_CHOICES) (hs : r.seekable = true) :
    (seek_pos r offset whence = (r.current_pos : Int) →
      r.seek t offset whence = (Except.ok r.current_pos, r)) ∧
    ((r.current_pos : Int) ≤ r.content_length →
      r.seek t 0 CURRENT = (Except.ok r.current_pos, r)) := by
  constructor
  · intro heq
    rw [seek_unfold r t offset whence hw hs, if_neg (fun hne => hne heq.symm), heq,
      Int.toNat_natCast]
  · intro hle
    have hw1 : CURRENT ∈ WHENCE_CHOICES := by decide
    have heq : seek_pos r 0 CURRENT = (r.current_pos : Int) := by
      show _clamp ((r.current_pos : Int) + 0) 0 r.content_length = (r.current_pos : Int)
      simp only [_clamp]
      omega
    rw [seek_unfold r t 0 CURRENT hw1 hs, if_neg (fun hne => hne heq.symm), heq,
      Int.toNat_natCast]

/-- C9 witness: seek 0 CURRENT on the fresh seekable reader returns
cursor 0 and leaves the state unchanged. -/
theorem seek_noop_witness :
    (0 : Int) ∈ WHENCE_CHOICES ∧ wReader.seekable = true ∧
    (wReader.current_pos : Int) ≤ wReader.content_length ∧
    wReader.seek wTransport 0 CURRENT = (Except.ok wReader.current_pos, wReader) :=
  ⟨by decide, by decide, by decide,
    (seek_noop wReader wTransport 0 0 (by decide) (by decide)).2 (by decide)⟩

/-- C10: when the re-request of a seek to a target different from the
cursor fails, the cursor has already been set to the clamped target and
the buffer and iterator discarded: seek returns the target, tell returns
it too, the handle is none and the request counter has advanced. -/
theorem seek_failure_state (r : Reader) (t : Transport) (offset whence : Int)
    (hw : whence ∈ WHENCE_CHOICES) (hs : r.seekable = true)
    (hne : (r.current_pos : Int) ≠ seek_pos r offset whence)
    (hfail : t.okAt (seek_pos r offset whence).toNat = false) :
    (r.seek t offset whence).1 = Except.ok (seek_pos r offset whence).toNat ∧
    ((r.seek t offset whence).2).current_pos = (seek_pos r offset whence).toNat ∧
    ((r.seek t offset whence).2).tell = (seek_pos r offset whence).toNat ∧
    ((r.seek t offset whence).2).response = none ∧
    ((r.seek t offset whence).2).read_iter = false ∧
    ((r.seek t offset whence).2).read_buffer = [] ∧
    ((r.seek t offset whence).2).request_count = r.request_count + 1 := by
  rw [seek_unfold r t offset whence hw hs, if_pos hne]
  refine ⟨rfl, rfl, rfl, ?_, rfl, rfl, rfl⟩
  simp [partial_request, hfail]

/-- C10 witness: on the 3-byte resource with a failing transport, seek to
2 returns 2, tell returns 2, the handle is gone and one more request was
counted. -/
theorem seek_failure_state_witness :
    wReader.seekable = true ∧
    ((wReader.current_pos : Int) ≠ seek_pos wReader 2 0) ∧
    (wReader.seek wFailTransport 2 0).1 = Except.ok 2 ∧
    ((wReader.seek wFailTransport 2 0).2).tell = 2 ∧
    ((wReader.seek wFailTransport 2 0).2).response = none ∧
    ((wReader.seek wFailTransport 2 0).2).request_count = 2 := by
  have h := seek_failure_state wReader wFailTransport 2 0 (by decide) (by decide)
      (by decide) (by decide)
  have hv : (seek_pos wReader 2 0).toNat = 2 := by decide
  refine ⟨by decide, by decide, ?_, ?_, h.2.2.2.1, ?_⟩
  · rw [h.1, hv]
  · rw [h.2.2.1, hv]
  · rw [h.2.2.2.2.2.2]; decide

end SmartOpenHttp
